import Mathlib

/-!
Shallow embedding of the Janus CSG engine and scene manager
(`src/backend/engine/CSGEngine.ts`, `src/backend/engine/SceneManager.ts`,
`src/types.ts`, wiring in `src/App.tsx`), with theorems checking the
specification's claims about script execution, naming, history and
serialization.

JavaScript numbers are modelled by `JSNum` (a rational plus the non-finite
values), JS `Map` by an insertion-ordered association list, `Date.now()` /
`Math.random()` by explicit clock / fresh-identifier parameters, and the
JSON snapshot string of `exportScene` by the object list it serializes
(`JSON.stringify`/`parse` round-trip these records losslessly).
-/

namespace Janus

/-- A JavaScript number: a finite rational or one of the non-finite values. -/
inductive JSNum where
  | finite (q : ℚ)
  | nan
  | inf
  | negInf
deriving DecidableEq

/-- `true` for the non-finite JavaScript numbers. -/
def JSNum.isNonFinite : JSNum → Bool
  | .finite _ => false
  | _ => true

/-- `true` when the number is negative (`-Infinity` included). -/
def JSNum.isNegative : JSNum → Bool
  | .finite q => decide (q < 0)
  | .negInf => true
  | _ => false

/-- A 3-component vector of JavaScript numbers (`types.ts` `Vector3`/`Euler`). -/
abbrev Vec3 := JSNum × JSNum × JSNum

/-- The zero vector `[0, 0, 0]`. -/
def v3zero : Vec3 := (.finite 0, .finite 0, .finite 0)

/-- The unit-scale vector `[1, 1, 1]`. -/
def v3one : Vec3 := (.finite 1, .finite 1, .finite 1)

/-- `types.ts` `enum ShapeType`. -/
inductive ShapeType where
  | BOX
  | SPHERE
  | CYLINDER
  | CONE
  | PLANE
  | MESH
deriving DecidableEq

/-- The three boolean operations of `three-bvh-csg` used by the engine. -/
inductive CSGOp where
  | ADDITION
  | SUBTRACTION
  | INTERSECTION
deriving DecidableEq

/-- A local transform: position, rotation (Euler, radians), scale. -/
structure Transform where
  position : Vec3
  rotation : Vec3
  scale : Vec3
deriving DecidableEq

/-- Geometry as the engine builds it: the three primitive geometries with
their constructor arguments (`THREE.BoxGeometry` etc., segment counts
included), and the result of `evaluator.evaluate(a, b, op)`, represented by
the operation together with each operand's geometry and world transform
(the engine calls `updateMatrixWorld()` on both operands first, so the
operand transforms at evaluation time fully determine the output mesh). -/
inductive Geometry where
  | box (width height depth : JSNum)
  | sphere (radius : JSNum) (widthSegments heightSegments : ℕ)
  | cylinder (radiusTop radiusBottom height : JSNum) (radialSegments : ℕ)
  | csgEvaluate (op : CSGOp) (aGeometry : Geometry) (aWorld : Transform)
      (bGeometry : Geometry) (bWorld : Transform)
deriving DecidableEq

/-- A material: the engine only ever reads/writes its color
(`MeshStandardMaterial`; roughness/metalness are never branched on). The
color is stored as the lowercase hex digits, the form
`color.getHexString()` returns. -/
structure Material where
  color : String
deriving DecidableEq

/-- A `three-bvh-csg` `Brush`: geometry, local transform, material, and the
`userData.type` tag the engine sets. Ephemeral — never persisted. -/
structure Brush where
  geometry : Geometry
  position : Vec3
  rotation : Vec3
  scale : Vec3
  material : Material
  userDataType : String
deriving DecidableEq

/-- The world transform of a brush as `updateMatrixWorld()` bakes it
(the engine uses no parent hierarchy, so world = local). -/
def Brush.world (b : Brush) : Transform :=
  ⟨b.position, b.rotation, b.scale⟩

/-- `types.ts` `interface CADObject`. `args` and `geometryData` are
optional fields (absent on objects finalized by the engine / built by the
command processor respectively); `geometryData` holds the baked geometry. -/
structure CADObject where
  id : String
  name : String
  type : ShapeType
  position : Vec3
  rotation : Vec3
  scale : Vec3
  color : String
  args : Option (List JSNum)
  selected : Bool
  visible : Bool
  geometryData : Option Geometry
deriving DecidableEq

/-- The same object with the identifier erased: what remains of a finalized
object when run-to-run identifier differences are disregarded. -/
def CADObject.stripId (o : CADObject) : CADObject :=
  { o with id := "" }

/-- `GeometryError` from the spec's error taxonomy (§7). The engine's
builtins are typed with this error channel so the spec's failure claims are
statable; the source builtins contain no throw, so every path below
returns `.ok`. -/
inductive GeometryError where
  | InvalidParameter
  | NoOperands
deriving DecidableEq

/-- `ScriptError` from the spec's error taxonomy (§7): `Runtime` is what
`CSGEngine.execute`'s catch block rethrows (`"Line " + line + ": " + msg`);
`Syntax` and `Timeout` are included so the spec's claims about them are
statable. -/
inductive ScriptError where
  | Syntax (msg : String)
  | Runtime (msg : String)
  | Timeout
deriving DecidableEq

/-- Strip a leading `#`: models `material.color.set(hex)` followed by
`getHexString()` for hex color strings like `"#3b82f6"`. -/
def stripHash (s : String) : String :=
  if s.startsWith "#" then s.drop 1 else s

/-! ### CADContext — the DSL available to the AI (`CSGEngine.ts` lines 12–153) -/

/-- The mutable context one script run owns: the finalized-object list and
the default material (`0xcccccc`); each primitive clones the material, so
the shared default is never mutated. -/
structure CADContext where
  objects : List CADObject
  material : Material
deriving DecidableEq

/-- A fresh context, as `execute` constructs it. -/
def newCADContext : CADContext :=
  ⟨[], ⟨"cccccc"⟩⟩

/-- `Box = (width = 1, height = 1, depth = 1) => ...`: builds a brush over
`BoxGeometry` with the cloned default material and tag `'BOX'`. `Option`
arguments model JS optional parameters (`none` = omitted, default applies);
no dimension validation is performed by the source. -/
def CADContext.Box (ctx : CADContext) (width height depth : Option JSNum) :
    Except GeometryError Brush :=
  .ok ⟨.box (width.getD (.finite 1)) (height.getD (.finite 1)) (depth.getD (.finite 1)),
    v3zero, v3zero, v3one, ctx.material, "BOX"⟩

/-- `Sphere = (radius = 0.5) => ...`: `SphereGeometry(radius, 32, 32)`,
tag `'SPHERE'`. -/
def CADContext.Sphere (ctx : CADContext) (radius : Option JSNum) :
    Except GeometryError Brush :=
  .ok ⟨.sphere (radius.getD (.finite (1 / 2))) 32 32, v3zero, v3zero, v3one,
    ctx.material, "SPHERE"⟩

/-- `Cylinder = (radiusTop = 0.5, radiusBottom = 0.5, height = 1) => ...`:
`CylinderGeometry(radiusTop, radiusBottom, height, 32)`, tag `'CYLINDER'`. -/
def CADContext.Cylinder (ctx : CADContext) (radiusTop radiusBottom height : Option JSNum) :
    Except GeometryError Brush :=
  .ok ⟨.cylinder (radiusTop.getD (.finite (1 / 2))) (radiusBottom.getD (.finite (1 / 2)))
    (height.getD (.finite 1)) 32, v3zero, v3zero, v3one, ctx.material, "CYLINDER"⟩

/-- `Move`: `if (!mesh) return mesh;` then `mesh.position.set(x, y, z)`
and return the same handle. -/
def CADContext.Move (mesh : Option Brush) (x y z : JSNum) : Option Brush :=
  match mesh with
  | none => none
  | some m => some { m with position := (x, y, z) }

/-- `Rotate`: null passes through; otherwise sets the rotation. -/
def CADContext.Rotate (mesh : Option Brush) (x y z : JSNum) : Option Brush :=
  match mesh with
  | none => none
  | some m => some { m with rotation := (x, y, z) }

/-- `Scale`: null passes through; otherwise sets the scale. -/
def CADContext.Scale (mesh : Option Brush) (x y z : JSNum) : Option Brush :=
  match mesh with
  | none => none
  | some m => some { m with scale := (x, y, z) }

/-- `Color`: null passes through; otherwise clones the material and sets its
color (every brush the DSL builds carries a single material, so the
array-material branch of the source is unreachable here). -/
def CADContext.Color (mesh : Option Brush) (hex : String) : Option Brush :=
  match mesh with
  | none => none
  | some m => some { m with material := ⟨stripHash hex⟩ }

/-- `evaluator.evaluate(a, b, op)` followed by the engine's fix-ups:
`userData.type = 'MESH'` and `result.material = a.material`. The result
brush carries the identity local transform (the evaluator emits world-space
geometry). -/
def csgResult (op : CSGOp) (a b : Brush) : Brush :=
  ⟨.csgEvaluate op a.geometry a.world b.geometry b.world,
    v3zero, v3zero, v3one, a.material, "MESH"⟩

/-- `Union = (a, b) => { if (!a || !b) return a || b; ... }`: one or both
operands null short-circuits to `a || b` (so both null returns null, with
no error); otherwise the evaluated ADDITION result. -/
def CADContext.Union (a b : Option Brush) : Except GeometryError (Option Brush) :=
  match a, b with
  | none, b => .ok b
  | some x, none => .ok (some x)
  | some x, some y => .ok (some (csgResult .ADDITION x y))

/-- `Subtract`: same guard, SUBTRACTION result. -/
def CADContext.Subtract (a b : Option Brush) : Except GeometryError (Option Brush) :=
  match a, b with
  | none, b => .ok b
  | some x, none => .ok (some x)
  | some x, some y => .ok (some (csgResult .SUBTRACTION x y))

/-- `Intersect`: same guard, INTERSECTION result. -/
def CADContext.Intersect (a b : Option Brush) : Except GeometryError (Option Brush) :=
  match a, b with
  | none, b => .ok b
  | some x, none => .ok (some x)
  | some x, some y => .ok (some (csgResult .INTERSECTION x y))

/-- `Add = (mesh, name) => { if (!mesh) return; ... }`: finalizes a brush
into the result list. The identifier is generated here, inside the
context, as `obj_${this.objects.length}_${Date.now()}`; `now` is the
ambient clock value `Date.now()` reads. The geometry is cloned (detached),
the color extracted as `'#' + getHexString()`. -/
def CADContext.Add (ctx : CADContext) (mesh : Option Brush) (name : String)
    (now : ℕ) : CADContext :=
  match mesh with
  | none => ctx
  | some m =>
    { ctx with objects := ctx.objects ++
        [⟨"obj_" ++ toString ctx.objects.length ++ "_" ++ toString now,
          name, .MESH, m.position, m.rotation, m.scale,
          "#" ++ m.material.color, none, false, true, some m.geometry⟩] }

/-! ### CSGEngine.execute — the script sandbox (`CSGEngine.ts` lines 155–181)

`execute` wraps the script text in
`const { Box, ..., Add } = ctx; try { CODE } catch (e) { throw ... }`
and runs it through `new Function('ctx', functionBody)`. Scripts are
straight-line statement sequences over brush variables (the form the
generated scripts take); a statement either declares a variable from a
builtin call, applies a transform/recolor to a variable, or finalizes one.
Variable lookup failure models the `ReferenceError` an undeclared name
raises, rewrapped by the engine's catch block. The DSL has no aliasing
construct, so value semantics for brush mutation coincides with the
source's reference semantics. -/

/-- One script statement over the builtin table. -/
inductive Stmt where
  | letBox (x : String) (width height depth : Option JSNum)
  | letSphere (x : String) (radius : Option JSNum)
  | letCylinder (x : String) (radiusTop radiusBottom height : Option JSNum)
  | letNull (x : String)
  | letUnion (x a b : String)
  | letSubtract (x a b : String)
  | letIntersect (x a b : String)
  | move (x : String) (dx dy dz : JSNum)
  | rotate (x : String) (rx ry rz : JSNum)
  | scale (x : String) (sx sy sz : JSNum)
  | color (x : String) (hex : String)
  | add (x : String) (name : String)
deriving DecidableEq

/-- The variable environment of a running script. -/
abbrev Env := List (String × Option Brush)

/-- The state a running script threads: the context and its variables. -/
structure ExecState where
  ctx : CADContext
  env : Env
deriving DecidableEq

/-- Reading a variable: an undeclared name raises a `ReferenceError`,
which the engine's catch block rewraps as `"Line " + '?' + ": " + msg`. -/
def lookupVar (env : Env) (x : String) : Except ScriptError (Option Brush) :=
  match env.find? (fun p => p.1 = x) with
  | some p => .ok p.2
  | none => .error (.Runtime ("Line ?: " ++ x ++ " is not defined"))

/-- Bind (or rebind) a variable. -/
def bindVar (env : Env) (x : String) (v : Option Brush) : Env :=
  if env.any (fun p => p.1 = x) then
    env.map (fun p => if p.1 = x then (x, v) else p)
  else
    env ++ [(x, v)]

/-- Rewrap a kernel error the way the sandbox's catch block does. -/
def liftGeometry {α : Type} : Except GeometryError α → Except ScriptError α
  | .ok a => .ok a
  | .error .InvalidParameter => .error (.Runtime "Line ?: invalid parameter")
  | .error .NoOperands => .error (.Runtime "Line ?: no operands")

/-- Run one statement. `now` is the ambient `Date.now()` clock. -/
def execStmt (now : ℕ) (st : ExecState) : Stmt → Except ScriptError ExecState
  | .letBox x w h d => do
    let b ← liftGeometry (st.ctx.Box w h d)
    .ok { st with env := bindVar st.env x (some b) }
  | .letSphere x r => do
    let b ← liftGeometry (st.ctx.Sphere r)
    .ok { st with env := bindVar st.env x (some b) }
  | .letCylinder x rt rb h => do
    let b ← liftGeometry (st.ctx.Cylinder rt rb h)
    .ok { st with env := bindVar st.env x (some b) }
  | .letNull x => .ok { st with env := bindVar st.env x none }
  | .letUnion x a b => do
    let va ← lookupVar st.env a
    let vb ← lookupVar st.env b
    let r ← liftGeometry (CADContext.Union va vb)
    .ok { st with env := bindVar st.env x r }
  | .letSubtract x a b => do
    let va ← lookupVar st.env a
    let vb ← lookupVar st.env b
    let r ← liftGeometry (CADContext.Subtract va vb)
    .ok { st with env := bindVar st.env x r }
  | .letIntersect x a b => do
    let va ← lookupVar st.env a
    let vb ← lookupVar st.env b
    let r ← liftGeometry (CADContext.Intersect va vb)
    .ok { st with env := bindVar st.env x r }
  | .move x dx dy dz => do
    let v ← lookupVar st.env x
    .ok { st with env := bindVar st.env x (CADContext.Move v dx dy dz) }
  | .rotate x rx ry rz => do
    let v ← lookupVar st.env x
    .ok { st with env := bindVar st.env x (CADContext.Rotate v rx ry rz) }
  | .scale x sx sy sz => do
    let v ← lookupVar st.env x
    .ok { st with env := bindVar st.env x (CADContext.Scale v sx sy sz) }
  | .color x hex => do
    let v ← lookupVar st.env x
    .ok { st with env := bindVar st.env x (CADContext.Color v hex) }
  | .add x name => do
    let v ← lookupVar st.env x
    .ok { st with ctx := st.ctx.Add v name now }

/-- Run a statement list, stopping at the first fault. -/
def runStmts (now : ℕ) : List Stmt → ExecState → Except ScriptError ExecState
  | [], st => .ok st
  | s :: rest, st =>
    match execStmt now st s with
    | .error e => .error e
    | .ok st' => runStmts now rest st'

/-- `CSGEngine.execute(code)`: build a fresh `CADContext`, run the script
against it, and return `context.getResults()`. The source contains no step
or time budget: the only error exits are the rewrapped runtime faults. -/
def execute (code : List Stmt) (now : ℕ) : Except ScriptError (List CADObject) :=
  match runStmts now code ⟨newCADContext, []⟩ with
  | .error e => .error e
  | .ok st => .ok st.ctx.objects

/-! ### Names visible inside a script

`execute` builds the body
`const { Box, Sphere, Cylinder, Move, Rotate, Scale, Color, Union,
Subtract, Intersect, Add } = ctx; try { CODE } catch ...` and compiles it
with `new Function('ctx', functionBody)`. A function created this way is
compiled in the global scope, so a free name inside `CODE` resolves against
the destructured builtins, the parameter `ctx`, and then the entire
JavaScript global scope. -/

/-- The builtin table destructured into the script's scope
(`CSGEngine.ts` line 162). -/
def builtinFunctionTable : List String :=
  ["Box", "Sphere", "Cylinder", "Move", "Rotate", "Scale", "Color",
   "Union", "Subtract", "Intersect", "Add"]

/-- A finite sample of the JavaScript global scope every
`new Function`-compiled body can reach (host state and I/O facilities
among them). -/
def jsGlobalScopeSample : List String :=
  ["globalThis", "Function", "eval", "Object", "Date", "console", "fetch",
   "XMLHttpRequest", "window", "document", "localStorage"]

/-- The names visible inside the script text `execute` runs: the
destructured builtin table, the function parameter `ctx` (still in scope
inside the embedded `CODE`, exposing the whole `CADContext` instance,
`getResults` included), and the global scope. -/
def scriptVisibleNames : List String :=
  builtinFunctionTable ++ ["ctx"] ++ jsGlobalScopeSample

/-! ### SceneManager (`SceneManager.ts`)

`this.objects` is a JS `Map<string, CADObject>`: insertion-ordered, `set`
on an existing key replaces the value in place, `delete` removes, `clear`
empties. Modelled by an association list with those operations.
`exportScene` returns `JSON.stringify(Array.from(this.objects.values()))`;
a snapshot is modelled by the serialized object list itself (`stringify` /
`parse` round-trip these records losslessly). `Date.now()`/`Math.random()`
identifier generation is modelled by an ambient supply `fresh : ℕ → String`
indexed by a call counter. -/

/-- The `Map<string, CADObject>` of live objects, insertion-ordered. -/
abbrev ObjMap := List (String × CADObject)

/-- `Map.set`: replace in place when the key exists, else append. -/
def mapSet (m : ObjMap) (k : String) (v : CADObject) : ObjMap :=
  if m.any (fun p => p.1 = k) then
    m.map (fun p => if p.1 = k then (k, v) else p)
  else
    m ++ [(k, v)]

/-- `Map.get`. -/
def mapGet (m : ObjMap) (k : String) : Option CADObject :=
  (m.find? (fun p => p.1 = k)).map (fun p => p.2)

/-- `Map.delete`. -/
def mapDelete (m : ObjMap) (k : String) : ObjMap :=
  m.filter (fun p => p.1 ≠ k)

/-- `Map.values()` as `getObjects`/`exportScene` read them. -/
def mapValues (m : ObjMap) : List CADObject :=
  m.map (fun p => p.2)

/-- A snapshot: the object list `exportScene` serializes. -/
abbrev Snapshot := List CADObject

/-- The scene manager's state: the live map and the two history stacks
(JS arrays, most-recent-last). -/
structure SceneManager where
  objects : ObjMap
  history : List Snapshot
  redoStack : List Snapshot
deriving DecidableEq

/-- `maxHistory = 20`. -/
def maxHistory : ℕ := 20

/-- A fresh manager: empty map, empty stacks. -/
def newSceneManager : SceneManager :=
  ⟨[], [], []⟩

/-- `exportScene(): string` — the serialized value list. -/
def exportScene (m : SceneManager) : Snapshot :=
  mapValues m.objects

/-- `loadScene(json)`: parse, and when the result is an array, clear the
map and re-insert every record under its own `id` field. (A well-formed
snapshot always parses; the malformed-JSON catch branch is unreachable for
snapshots produced by `exportScene`.) -/
def loadScene (m : SceneManager) (json : Snapshot) : SceneManager :=
  { m with objects := json.foldl (fun acc obj => mapSet acc obj.id obj) [] }

/-- The `history.push` then `if (length > maxHistory) shift()` step of
`saveState`, on the undo stack alone. -/
def pushHistory (h : List Snapshot) (s : Snapshot) : List Snapshot :=
  if maxHistory < (h ++ [s]).length then (h ++ [s]).tail else h ++ [s]

/-- `saveState()`: push the current snapshot onto the undo stack, evict the
oldest entry past capacity, and clear the redo stack. -/
def saveState (m : SceneManager) : SceneManager :=
  { m with history := pushHistory m.history (exportScene m), redoStack := [] }

/-- `getUniqueName`'s `while (taken.has(candidate))` loop, with explicit
fuel: at most `taken.length` candidates can collide, so fuel
`taken.length + 1` makes the fuel-exhausted fallback unreachable. -/
def uniqueNameLoop (taken : List String) (baseName : String) :
    ℕ → ℕ → String
  | 0, counter => baseName ++ toString counter
  | fuel + 1, counter =>
    let candidate := baseName ++ toString counter
    if candidate ∈ taken then uniqueNameLoop taken baseName fuel (counter + 1)
    else candidate

/-- `getUniqueName(baseName, excludeId?)`: collect the names of every live
object whose id is not the excluded one; return `baseName` when free, else
the first `baseName₁, baseName₂, …` not taken. -/
def getUniqueName (m : SceneManager) (baseName : String)
    (excludeId : Option String) : String :=
  let taken := ((mapValues m.objects).filter
    (fun o => !(some o.id == excludeId))).map (fun o => o.name)
  if baseName ∈ taken then uniqueNameLoop taken baseName (taken.length + 1) 1
  else baseName

/-- `renameObject(id, newName)`: no-op when the id is absent or the name
unchanged; otherwise snapshot, uniquify excluding the object itself, and
replace. -/
def renameObject (m : SceneManager) (id newName : String) : SceneManager :=
  match mapGet m.objects id with
  | none => m
  | some obj =>
    if obj.name = newName then m
    else
      let m' := saveState m
      let uniqueName := getUniqueName m' newName (some id)
      { m' with objects := mapSet m'.objects id { obj with name := uniqueName } }

/-- `undo()`: no-op on an empty undo stack; otherwise push the current
snapshot onto the redo stack, pop the undo stack and load the popped
snapshot. -/
def undo (m : SceneManager) : SceneManager :=
  match m.history.getLast? with
  | none => m
  | some previousState =>
    let m' : SceneManager :=
      { m with redoStack := m.redoStack ++ [exportScene m],
               history := m.history.dropLast }
    loadScene m' previousState

/-- `redo()`: the mirror image of `undo`. (`history.push` here is a plain
push — `redo` does not evict, only `saveState` does.) -/
def redo (m : SceneManager) : SceneManager :=
  match m.redoStack.getLast? with
  | none => m
  | some nextState =>
    let m' : SceneManager :=
      { m with history := m.history ++ [exportScene m],
               redoStack := m.redoStack.dropLast }
    loadScene m' nextState

/-! ### Command processor (`SceneManager.processCommands`) -/

/-- `types.ts` `enum AIActionType`. -/
inductive AIActionType where
  | CREATE
  | UPDATE
  | DELETE
  | CLEAR
  | UNDO
  | REDO
  | FOCUS
deriving DecidableEq

/-- `Partial<CADObject>`: every field optional (`none` = absent). -/
structure PartialCADObject where
  id : Option String
  name : Option String
  type : Option ShapeType
  position : Option Vec3
  rotation : Option Vec3
  scale : Option Vec3
  color : Option String
  args : Option (List JSNum)
  selected : Option Bool
  visible : Option Bool
  geometryData : Option Geometry
deriving DecidableEq

/-- The all-absent partial object. -/
def emptyPartial : PartialCADObject :=
  ⟨none, none, none, none, none, none, none, none, none, none, none⟩

/-- `types.ts` `interface AICommand` (the `reasoning` field is never read
by the engine and is omitted). -/
structure AICommand where
  action : AIActionType
  targetId : Option String
  objectData : Option PartialCADObject
deriving DecidableEq

/-- JavaScript `a || b` on optional strings: `undefined` and the empty
string are falsy. -/
def jsOrStr (a b : Option String) : Option String :=
  match a with
  | some s => if s = "" then b else some s
  | none => b

/-- JavaScript truthiness of an optional string. -/
def isTruthyStr (a : Option String) : Bool :=
  match a with
  | some s => s ≠ ""
  | none => false

/-- The object the CREATE case builds (`SceneManager.ts` lines 116–127):
explicit field-by-field construction with defaults — `type || 'BOX'`,
`position || [0,0,0]`, `scale || [1,1,1]`, `color || '#3b82f6'`,
`visible !== false`, `args || []`, `selected: false`; `geometryData` is
never set. `name || 'Object'` defaulting and uniquification happen before
this. -/
def buildCreateObject (id uniqueName : String) (d : PartialCADObject) : CADObject :=
  ⟨id, uniqueName, d.type.getD .BOX,
    d.position.getD v3zero, d.rotation.getD v3zero, d.scale.getD v3one,
    (match d.color with
      | some c => if c = "" then "#3b82f6" else c
      | none => "#3b82f6"),
    some (d.args.getD []), false, d.visible != some false, none⟩

/-- One command against `(manager, fresh-id counter)`.
`targetId = cmd.targetId || cmd.objectData?.id`. -/
def processCommand (fresh : ℕ → String) (st : SceneManager × ℕ)
    (cmd : AICommand) : SceneManager × ℕ :=
  let m := st.1
  let targetId := jsOrStr cmd.targetId (cmd.objectData.bind (fun d => d.id))
  match cmd.action with
  | .CREATE =>
    match cmd.objectData with
    | none => st
    | some d =>
      -- Priority: objectData.id -> cmd.targetId -> generated `obj_..._...`
      let given := jsOrStr d.id targetId
      let id := (jsOrStr given (some (fresh st.2))).getD (fresh st.2)
      let k' := if isTruthyStr given then st.2 else st.2 + 1
      let rawName :=
        match d.name with
        | some n => if n = "" then "Object" else n
        | none => "Object"
      let uniqueName := getUniqueName m rawName none
      let newObj := buildCreateObject id uniqueName d
      ({ m with objects := mapSet m.objects newObj.id newObj }, k')
  | .UPDATE =>
    if isTruthyStr targetId then
      let tid := targetId.getD ""
      match mapGet m.objects tid with
      | none => st
      | some existing =>
        let d := cmd.objectData.getD emptyPartial
        -- `{...existing, ...cleanUpdates}` with null/undefined filtered out;
        -- a nonempty new name is uniquified first (`if (cleanUpdates.name && ...)`).
        let merged : CADObject :=
          ⟨d.id.getD existing.id,
            (match d.name with
              | some n => if n = "" then "" else getUniqueName m n (some tid)
              | none => existing.name),
            d.type.getD existing.type,
            d.position.getD existing.position,
            d.rotation.getD existing.rotation,
            d.scale.getD existing.scale,
            d.color.getD existing.color,
            (match d.args with
              | some a => some a
              | none => existing.args),
            d.selected.getD existing.selected,
            d.visible.getD existing.visible,
            (match d.geometryData with
              | some g => some g
              | none => existing.geometryData)⟩
        ({ m with objects := mapSet m.objects tid merged }, st.2)
    else st
  | .DELETE =>
    if isTruthyStr targetId then
      ({ m with objects := mapDelete m.objects (targetId.getD "") }, st.2)
    else st
  | .CLEAR => ({ m with objects := [] }, st.2)
  | .UNDO => (undo m, st.2)
  | .REDO => (redo m, st.2)
  | .FOCUS => st

/-- `processCommands(commands)`: one `saveState` up front when any command
in the batch mutates the scene, then apply the commands in array order. -/
def processCommands (m : SceneManager) (commands : List AICommand)
    (fresh : ℕ → String) : SceneManager :=
  let modifiesScene := commands.any (fun c =>
    c.action = .CREATE ∨ c.action = .UPDATE ∨ c.action = .DELETE ∨ c.action = .CLEAR)
  let m' := if modifiesScene then saveState m else m
  (commands.foldl (processCommand fresh) (m', 0)).1

/-! ### Shared concrete inputs for the scenario theorems -/

/-- A CREATE command carrying an explicit identifier and name. -/
def createCmd (i n : String) : AICommand :=
  ⟨.CREATE, none, some { emptyPartial with id := some i, name := some n }⟩

/-- A deterministic fresh-identifier supply for concrete scenarios (never
consumed when commands carry explicit ids). -/
def fresh0 : ℕ → String :=
  fun k => "rand_" ++ toString k

/-- The Scenario B script: two boxes, each finalized as `"Cube"`. -/
def cubeScript : List Stmt :=
  [.letBox "a" none none none, .add "a" "Cube",
   .letBox "b" none none none, .add "b" "Cube"]

/-! ### C1 — sandbox scope -/

/-- C1: the claim that the only names visible inside an executed script are
the eleven builtins fails on the code: the body compiled by
`new Function('ctx', ...)` also sees the parameter `ctx` (the whole
`CADContext` instance) and the entire JavaScript global scope, `console`
among it. -/
theorem sandbox_scope_leaks_host_names :
    "ctx" ∈ scriptVisibleNames ∧ "ctx" ∉ builtinFunctionTable ∧
    "console" ∈ scriptVisibleNames ∧ "console" ∉ builtinFunctionTable ∧
    "fetch" ∈ scriptVisibleNames ∧ "fetch" ∉ builtinFunctionTable := by
  decide

/-! ### C2 — boolean operations with null operands -/

/-- C2 (counterexample): with both operands null, `Union` returns `null`
silently; it does not fail with `GeometryError::NoOperands` as the claim
states. -/
theorem union_both_null_returns_null :
    CADContext.Union none none = Except.ok none ∧
    CADContext.Union none none ≠ Except.error GeometryError.NoOperands := by
  exact ⟨rfl, by simp [CADContext.Union]⟩

/-- C2 (amended): for every boolean operation, a null operand
short-circuits to `a || b`: one null operand returns the other unchanged
with no error, and two null operands return null with no error — no
`NoOperands` fault exists in the code. -/
theorem boolean_null_operand_passthrough :
    ∀ (b : Option Brush) (x : Brush),
      CADContext.Union none b = Except.ok b ∧
      CADContext.Union (some x) none = Except.ok (some x) ∧
      CADContext.Subtract none b = Except.ok b ∧
      CADContext.Subtract (some x) none = Except.ok (some x) ∧
      CADContext.Intersect none b = Except.ok b ∧
      CADContext.Intersect (some x) none = Except.ok (some x) := by
  intro b x
  exact ⟨rfl, rfl, rfl, rfl, rfl, rfl⟩

/-! ### C6 — primitive dimension validation -/

/-- C6 (counterexample): `Box` called with a negative width — an invalid
dimension in the claim's terms — still constructs a brush, and a
non-finite radius still constructs a sphere brush; neither call fails with
`GeometryError::InvalidParameter`. -/
theorem box_negative_width_constructs_brush :
    (JSNum.finite (-1)).isNegative = true ∧
    (CADContext.Box newCADContext (some (JSNum.finite (-1))) none none).isOk = true ∧
    CADContext.Box newCADContext (some (JSNum.finite (-1))) none none ≠
      Except.error GeometryError.InvalidParameter ∧
    JSNum.nan.isNonFinite = true ∧
    (CADContext.Sphere newCADContext (some JSNum.nan)).isOk = true := by
  refine ⟨rfl, rfl, ?_, rfl, rfl⟩
  simp [CADContext.Box]

/-- C6 (amended): the primitive constructors perform no dimension
validation: every call — negative and non-finite dimensions included —
constructs and returns a brush of the corresponding kind, and no
`GeometryError` is ever raised. -/
theorem primitives_never_reject_dimensions :
    ∀ (ctx : CADContext) (w h d r rt rb ch : Option JSNum),
      (ctx.Box w h d).isOk = true ∧
      (ctx.Sphere r).isOk = true ∧
      (ctx.Cylinder rt rb ch).isOk = true ∧
      (∀ e : GeometryError, ctx.Box w h d ≠ Except.error e) := by
  intro ctx w h d r rt rb ch
  refine ⟨rfl, rfl, rfl, ?_⟩
  intro e
  simp [CADContext.Box]

/-! ### C4 — duplicate finalize names -/

/-- C4: executing the two-cube script through `csgEngine.execute` — the
path `App.tsx` installs into the scene unchanged — produces two objects
both named `"Cube"`, not `"Cube"`/`"Cube1"`; the `"Cube1"` suffixing only
happens when objects are inserted through `SceneManager` (whose
`getUniqueName` this repository never wires into the script path). -/
theorem two_cubes_both_named_cube :
    Except.map (fun l => l.map CADObject.name) (execute cubeScript 0) =
      Except.ok ["Cube", "Cube"] ∧
    (processCommands newSceneManager
        [createCmd "i1" "Cube", createCmd "i2" "Cube"] fresh0).objects.map
      (fun p => p.2.name) = ["Cube", "Cube1"] := by
  exact ⟨rfl, by decide⟩

/-! ### C7 — rename/undo scenario -/

/-- C7: create an object named `"X"`, rename it to `"Y"`, then to `"Z"`
(each rename snapshotting first); one `undo()` restores the name to `"Y"`
and a second `undo()` restores it to `"X"`. -/
theorem rename_undo_restores_names :
    ((undo (renameObject (renameObject
        (processCommands newSceneManager [createCmd "a" "X"] fresh0)
        "a" "Y") "a" "Z")).objects.map (fun p => p.2.name) = ["Y"]) ∧
    ((undo (undo (renameObject (renameObject
        (processCommands newSceneManager [createCmd "a" "X"] fresh0)
        "a" "Y") "a" "Z"))).objects.map (fun p => p.2.name) = ["X"]) := by
  exact ⟨by decide, by decide⟩

/-! ### C8 — bounded history -/

/-- While the stack stays within capacity, pushing appends without
eviction. -/
theorem foldl_pushHistory_of_le (l : List Snapshot) :
    ∀ h : List Snapshot, h.length + l.length ≤ maxHistory →
      l.foldl pushHistory h = h ++ l := by
  have hmax : maxHistory = 20 := rfl
  induction l with
  | nil => intro h _; simp
  | cons a t ih =>
    intro h hle
    simp only [List.length_cons, hmax] at hle
    have hstep : pushHistory h a = h ++ [a] := by
      rw [pushHistory, if_neg]
      simp only [List.length_append, List.length_cons, List.length_nil, hmax]
      omega
    have htail : (h ++ [a]).length + t.length ≤ maxHistory := by
      simp only [List.length_append, List.length_cons, List.length_nil, hmax]
      omega
    calc (a :: t).foldl pushHistory h
        = t.foldl pushHistory (pushHistory h a) := rfl
      _ = t.foldl pushHistory (h ++ [a]) := by rw [hstep]
      _ = (h ++ [a]) ++ t := ih (h ++ [a]) htail
      _ = h ++ a :: t := by simp

/-- C8: `saveState` pushes the pre-operation snapshot and unconditionally
clears the redo stack; the undo stack never grows past capacity 20; and
pushing 21 snapshots into an empty stack evicts exactly the first one
(FIFO), so after 21 mutating operations the state preceding the first is
no longer on the undo stack. -/
theorem history_capacity_and_eviction :
    (∀ m : SceneManager,
      (saveState m).history = pushHistory m.history (exportScene m) ∧
      (saveState m).redoStack = []) ∧
    (∀ m : SceneManager, m.history.length ≤ maxHistory →
      (saveState m).history.length ≤ maxHistory) ∧
    (∀ ss : List Snapshot, ss.length = 21 →
      ss.foldl pushHistory [] = ss.tail) := by
  have hmax : maxHistory = 20 := rfl
  refine ⟨fun m => ⟨rfl, rfl⟩, ?_, ?_⟩
  · intro m hle
    rw [hmax] at hle
    show (pushHistory m.history (exportScene m)).length ≤ maxHistory
    rw [pushHistory]
    split
    · simp only [List.length_tail, List.length_append, List.length_cons,
        List.length_nil, hmax]
      omega
    · rename_i hnot
      simp only [List.length_append, List.length_cons, List.length_nil,
        not_lt, hmax] at hnot ⊢
      omega
  · intro ss hlen
    rcases List.eq_nil_or_concat ss with hnil | ⟨L, b, hLb⟩
    · subst hnil; simp at hlen
    · rw [List.concat_eq_append] at hLb
      subst hLb
      have hL : L.length = 20 := by
        simp only [List.length_append, List.length_cons, List.length_nil] at hlen
        omega
      have hfold : L.foldl pushHistory [] = L := by
        have := foldl_pushHistory_of_le L [] (by simp [hL, hmax])
        simpa using this
      have hlast : pushHistory L b = (L ++ [b]).tail := by
        rw [pushHistory, if_pos]
        simp [hL, hmax]
      calc (L ++ [b]).foldl pushHistory []
          = pushHistory (L.foldl pushHistory []) b := by
            rw [List.foldl_append]; rfl
        _ = pushHistory L b := by rw [hfold]
        _ = (L ++ [b]).tail := hlast

/-- C8 (witness): the capacity bound applied to the fresh manager, and the
eviction equation applied to a concrete list of 21 snapshots. -/
theorem history_capacity_and_eviction_witness :
    (saveState newSceneManager).history.length ≤ maxHistory ∧
    (List.replicate 21 ([] : Snapshot)).foldl pushHistory [] =
      (List.replicate 21 ([] : Snapshot)).tail :=
  ⟨history_capacity_and_eviction.2.1 newSceneManager (by decide),
   history_capacity_and_eviction.2.2 (List.replicate 21 []) (by decide)⟩

/-! ### C9 — export/import round trip -/

/-- Re-inserting records with pairwise-distinct ids into a map that holds
none of them appends them in order. -/
theorem foldl_mapSet_of_nodup (l : List CADObject) :
    ∀ acc : ObjMap,
      (l.map (fun o => o.id)).Nodup →
      (∀ o ∈ l, acc.any (fun p => p.1 = o.id) = false) →
      l.foldl (fun a o => mapSet a o.id o) acc =
        acc ++ l.map (fun o => (o.id, o)) := by
  induction l with
  | nil => intro acc _ _; simp
  | cons o t ih =>
    intro acc hnd hacc
    have hstep : mapSet acc o.id o = acc ++ [(o.id, o)] := by
      have := hacc o (List.mem_cons_self o t)
      simp [mapSet, this]
    have hcons : (o.id :: t.map (fun o => o.id)).Nodup := by
      simpa using hnd
    have hnd' : (t.map (fun o => o.id)).Nodup := (List.nodup_cons.mp hcons).2
    have hnotin : o.id ∉ t.map (fun o => o.id) := (List.nodup_cons.mp hcons).1
    have hacc' : ∀ o' ∈ t, (acc ++ [(o.id, o)]).any (fun p => p.1 = o'.id) = false := by
      intro o' ho'
      have h1 : acc.any (fun p => p.1 = o'.id) = false :=
        hacc o' (List.mem_cons_of_mem o ho')
      have h2 : o.id ≠ o'.id := by
        intro hco
        exact hnotin (hco ▸ List.mem_map_of_mem (fun o => o.id) ho')
      simp [List.any_append, h1, h2]
    calc (o :: t).foldl (fun a o => mapSet a o.id o) acc
        = t.foldl (fun a o => mapSet a o.id o) (mapSet acc o.id o) := rfl
      _ = t.foldl (fun a o => mapSet a o.id o) (acc ++ [(o.id, o)]) := by rw [hstep]
      _ = (acc ++ [(o.id, o)]) ++ t.map (fun o => (o.id, o)) := ih _ hnd' hacc'
      _ = acc ++ (o :: t).map (fun o => (o.id, o)) := by simp

/-- C9 (amended): `loadScene(exportScene())` restores the document exactly
— same objects, ids, names, fields, and history stacks — for every state
whose map entries are keyed by their own object's `id` field (with
pairwise-distinct keys). All states reachable without an UPDATE command
that carries an `id` in its `objectData` satisfy this; such an UPDATE can
desync an object's `id` field from its map key, after which the round trip
re-keys by `id` and can drop objects. -/
theorem roundtrip_exact_for_consistent_maps :
    ∀ m : SceneManager,
      (∀ p ∈ m.objects, p.2.id = p.1) →
      (m.objects.map Prod.fst).Nodup →
      loadScene m (exportScene m) = m := by
  intro m hid hnd
  obtain ⟨obs, hist, redos⟩ := m
  simp only at hid hnd
  have hids : (obs.map (fun p => p.2)).map (fun o => o.id) = obs.map Prod.fst := by
    rw [List.map_map]
    exact List.map_congr_left (fun p hp => hid p hp)
  have hfold := foldl_mapSet_of_nodup (obs.map (fun p => p.2)) []
    (by rw [hids]; exact hnd) (by intro o _; simp)
  have hobs : (obs.map (fun p => p.2)).foldl (fun a o => mapSet a o.id o) [] = obs := by
    rw [hfold]
    simp only [List.nil_append, List.map_map]
    calc obs.map ((fun o => (o.id, o)) ∘ fun p => p.2)
        = obs.map (fun p => p) :=
          List.map_congr_left (by
            intro p hp
            simp only [Function.comp_apply, hid p hp])
      _ = obs := by simp
  show SceneManager.mk ((obs.map (fun p => p.2)).foldl (fun a o => mapSet a o.id o) [])
    hist redos = SceneManager.mk obs hist redos
  rw [hobs]

/-- The UPDATE command of the C9 counterexample: it targets object `"a"`
and carries `objectData.id = "b"`, overwriting the stored object's `id`
field while the map key stays `"a"`. -/
def updateIdCmd : AICommand :=
  ⟨.UPDATE, some "a", some { emptyPartial with id := some "b" }⟩

/-- A reachable state whose map key and object `id` field disagree: two
objects are created, then the first one's `id` field is overwritten with
the second one's identifier. -/
def idClashScene : SceneManager :=
  processCommands newSceneManager
    [createCmd "a" "A", createCmd "b" "B", updateIdCmd] fresh0

/-- C9 (counterexample): on the reachable state `idClashScene` the claim
fails — the document holds two objects, but importing its own export
re-keys both records under id `"b"` and keeps only one, so the round trip
does not preserve the object count. -/
theorem roundtrip_loses_object :
    idClashScene.objects.length = 2 ∧
    (loadScene idClashScene (exportScene idClashScene)).objects.length = 1 := by
  exact ⟨by decide, by decide⟩

/-- C9 (witness): the round-trip theorem applied to a concrete reachable
consistent state. -/
theorem roundtrip_exact_witness :
    loadScene (processCommands newSceneManager [createCmd "a" "A"] fresh0)
      (exportScene (processCommands newSceneManager [createCmd "a" "A"] fresh0)) =
      processCommands newSceneManager [createCmd "a" "A"] fresh0 :=
  roundtrip_exact_for_consistent_maps _ (by decide) (by decide)

/-! ### C10 — CREATE onto an existing identifier -/

/-- The CREATE-built object keeps the identifier it was given. -/
theorem buildCreateObject_id (id n : String) (d : PartialCADObject) :
    (buildCreateObject id n d).id = id := rfl

/-- `Map.set` on a key already present keeps the key sequence unchanged. -/
theorem mapSet_keys_of_mem (m : ObjMap) (k : String) (v : CADObject)
    (h : m.any (fun p => p.1 = k) = true) :
    (mapSet m k v).map Prod.fst = m.map Prod.fst := by
  rw [mapSet, if_pos h, List.map_map]
  refine List.map_congr_left ?_
  intro p _
  by_cases hpk : p.1 = k
  · simp [hpk]
  · simp [hpk]

/-- After replacing the value at a present key, lookup finds the new value. -/
theorem mapGet_map_replace (k : String) (v : CADObject) :
    ∀ m : ObjMap, m.any (fun p => p.1 = k) = true →
      mapGet (m.map (fun p => if p.1 = k then (k, v) else p)) k = some v := by
  intro m
  induction m with
  | nil => intro h; simp at h
  | cons a t ih =>
    intro h
    by_cases hak : a.1 = k
    · simp [mapGet, hak]
    · have h' : t.any (fun p => p.1 = k) = true := by
        simpa [hak] using h
      simpa [mapGet, hak] using ih h'

/-- `Map.set` on a present key makes lookup return the new value. -/
theorem mapGet_mapSet_of_mem (m : ObjMap) (k : String) (v : CADObject)
    (h : m.any (fun p => p.1 = k) = true) :
    mapGet (mapSet m k v) k = some v := by
  rw [mapSet, if_pos h]
  exact mapGet_map_replace k v m h

/-- C10: a CREATE whose `objectData.id` (or, failing that, `targetId`)
names a live object silently replaces that object: the map's key sequence
(and so its size) is unchanged, no fresh identifier is assigned, the old
value is overwritten with the object built from the command's data, and no
error or fault is reported (the processor has no failure channel). -/
theorem create_with_existing_id_replaces :
    ∀ (m : SceneManager) (cmd : AICommand) (d : PartialCADObject) (i : String)
      (fresh : ℕ → String),
      cmd.action = .CREATE →
      cmd.objectData = some d →
      (d.id = some i ∨ (d.id = none ∧ cmd.targetId = some i)) →
      i ≠ "" →
      m.objects.any (fun p => p.1 = i) = true →
      ((processCommands m [cmd] fresh).objects.map Prod.fst =
          m.objects.map Prod.fst) ∧
      ((processCommands m [cmd] fresh).objects.length = m.objects.length) ∧
      mapGet (processCommands m [cmd] fresh).objects i =
        some (buildCreateObject i
          (getUniqueName m
            (match d.name with
             | some n => if n = "" then "Object" else n
             | none => "Object") none) d) := by
  intro m cmd d i fresh hact hdata hid hi hmem
  obtain ⟨act, tgt, od⟩ := cmd
  simp only at hact hdata
  subst hact hdata
  have hobjects : (processCommands m [⟨.CREATE, tgt, some d⟩] fresh).objects =
      mapSet m.objects i
        (buildCreateObject i
          (getUniqueName m
            (match d.name with
             | some n => if n = "" then "Object" else n
             | none => "Object") none) d) := by
    rcases hid with hA | ⟨hB1, hB2⟩
    · simp [processCommands, processCommand, hA, jsOrStr, isTruthyStr, hi,
        saveState, getUniqueName, buildCreateObject_id]
    · subst hB2
      simp [processCommands, processCommand, hB1, jsOrStr, isTruthyStr, hi,
        saveState, getUniqueName, buildCreateObject_id]
  refine ⟨?_, ?_, ?_⟩
  · rw [hobjects]
    exact mapSet_keys_of_mem m.objects i _ hmem
  · rw [hobjects]
    have hkeys := mapSet_keys_of_mem m.objects i
      (buildCreateObject i
        (getUniqueName m
          (match d.name with
           | some n => if n = "" then "Object" else n
           | none => "Object") none) d) hmem
    have := congrArg List.length hkeys
    simpa using this
  · rw [hobjects]
    exact mapGet_mapSet_of_mem m.objects i _ hmem

/-- C10 (witness): replacing a live object by a CREATE that reuses its
identifier, on a concrete one-object scene. -/
theorem create_with_existing_id_replaces_witness :
    ((processCommands (processCommands newSceneManager [createCmd "a" "A"] fresh0)
        [⟨.CREATE, none, some { emptyPartial with id := some "a", name := some "B" }⟩]
        fresh0).objects.map Prod.fst =
      (processCommands newSceneManager [createCmd "a" "A"] fresh0).objects.map
        Prod.fst) ∧
    ((processCommands (processCommands newSceneManager [createCmd "a" "A"] fresh0)
        [⟨.CREATE, none, some { emptyPartial with id := some "a", name := some "B" }⟩]
        fresh0).objects.length =
      (processCommands newSceneManager [createCmd "a" "A"] fresh0).objects.length) ∧
    mapGet (processCommands (processCommands newSceneManager [createCmd "a" "A"] fresh0)
        [⟨.CREATE, none, some { emptyPartial with id := some "a", name := some "B" }⟩]
        fresh0).objects "a" =
      some (buildCreateObject "a"
        (getUniqueName (processCommands newSceneManager [createCmd "a" "A"] fresh0)
          (match ({ emptyPartial with id := some "a", name := some "B" } :
              PartialCADObject).name with
           | some n => if n = "" then "Object" else n
           | none => "Object") none)
        { emptyPartial with id := some "a", name := some "B" }) :=
  create_with_existing_id_replaces
    (processCommands newSceneManager [createCmd "a" "A"] fresh0)
    ⟨.CREATE, none, some { emptyPartial with id := some "a", name := some "B" }⟩
    { emptyPartial with id := some "a", name := some "B" } "a" fresh0
    rfl rfl (Or.inl rfl) (by decide) (by decide)

/-! ### C5 — execution budget -/

/-- An undeclared-variable fault is always a `Runtime` error. -/
theorem lookupVar_error_runtime (env : Env) (x : String) (e : ScriptError)
    (h : lookupVar env x = .error e) : ∃ msg, e = .Runtime msg := by
  rw [lookupVar] at h
  cases hf : env.find? (fun p => p.1 = x) with
  | none =>
    rw [hf] at h
    exact ⟨"Line ?: " ++ x ++ " is not defined", by injection h with h'; rw [h']⟩
  | some p => rw [hf] at h; cases h

/-- A rewrapped kernel fault is always a `Runtime` error. -/
theorem liftGeometry_error_runtime {α : Type} (r : Except GeometryError α)
    (e : ScriptError) (h : liftGeometry r = .error e) : ∃ msg, e = .Runtime msg := by
  cases r with
  | ok a => rw [liftGeometry] at h; cases h
  | error g =>
    cases g with
    | InvalidParameter =>
      exact ⟨"Line ?: invalid parameter", by rw [liftGeometry] at h; injection h with h'; rw [h']⟩
    | NoOperands =>
      exact ⟨"Line ?: no operands", by rw [liftGeometry] at h; injection h with h'; rw [h']⟩

/-- Every fault a single statement can raise is a `Runtime` error. -/
theorem execStmt_error_runtime (now : ℕ) (st : ExecState) (s : Stmt)
    (e : ScriptError) (h : execStmt now st s = .error e) :
    ∃ msg, e = .Runtime msg := by
  cases s with
  | letBox x w hh d =>
    simp only [execStmt, CADContext.Box, liftGeometry, bind, Except.bind] at h
    cases h
  | letSphere x r =>
    simp only [execStmt, CADContext.Sphere, liftGeometry, bind, Except.bind] at h
    cases h
  | letCylinder x rt rb hh =>
    simp only [execStmt, CADContext.Cylinder, liftGeometry, bind, Except.bind] at h
    cases h
  | letNull x => simp only [execStmt] at h; cases h
  | letUnion x a b =>
    simp only [execStmt] at h
    cases ha : lookupVar st.env a with
    | error ea =>
      rw [ha] at h
      simp only [bind, Except.bind] at h
      exact lookupVar_error_runtime st.env a e (ha.trans (by injection h with h'; rw [h']))
    | ok va =>
      rw [ha] at h
      simp only [bind, Except.bind] at h
      cases hb : lookupVar st.env b with
      | error eb =>
        rw [hb] at h
        simp only [bind, Except.bind] at h
        exact lookupVar_error_runtime st.env b e (hb.trans (by injection h with h'; rw [h']))
      | ok vb =>
        rw [hb] at h
        simp only [bind, Except.bind, CADContext.Union] at h
        cases va <;> cases vb <;> simp_all [liftGeometry]
  | letSubtract x a b =>
    simp only [execStmt] at h
    cases ha : lookupVar st.env a with
    | error ea =>
      rw [ha] at h
      simp only [bind, Except.bind] at h
      exact lookupVar_error_runtime st.env a e (ha.trans (by injection h with h'; rw [h']))
    | ok va =>
      rw [ha] at h
      simp only [bind, Except.bind] at h
      cases hb : lookupVar st.env b with
      | error eb =>
        rw [hb] at h
        simp only [bind, Except.bind] at h
        exact lookupVar_error_runtime st.env b e (hb.trans (by injection h with h'; rw [h']))
      | ok vb =>
        rw [hb] at h
        simp only [bind, Except.bind, CADContext.Subtract] at h
        cases va <;> cases vb <;> simp_all [liftGeometry]
  | letIntersect x a b =>
    simp only [execStmt] at h
    cases ha : lookupVar st.env a with
    | error ea =>
      rw [ha] at h
      simp only [bind, Except.bind] at h
      exact lookupVar_error_runtime st.env a e (ha.trans (by injection h with h'; rw [h']))
    | ok va =>
      rw [ha] at h
      simp only [bind, Except.bind] at h
      cases hb : lookupVar st.env b with
      | error eb =>
        rw [hb] at h
        simp only [bind, Except.bind] at h
        exact lookupVar_error_runtime st.env b e (hb.trans (by injection h with h'; rw [h']))
      | ok vb =>
        rw [hb] at h
        simp only [bind, Except.bind, CADContext.Intersect] at h
        cases va <;> cases vb <;> simp_all [liftGeometry]
  | move x dx dy dz =>
    simp only [execStmt] at h
    cases hv : lookupVar st.env x with
    | error ev =>
      rw [hv] at h
      simp only [bind, Except.bind] at h
      exact lookupVar_error_runtime st.env x e (hv.trans (by injection h with h'; rw [h']))
    | ok v => rw [hv] at h; simp only [bind, Except.bind] at h; cases h
  | rotate x rx ry rz =>
    simp only [execStmt] at h
    cases hv : lookupVar st.env x with
    | error ev =>
      rw [hv] at h
      simp only [bind, Except.bind] at h
      exact lookupVar_error_runtime st.env x e (hv.trans (by injection h with h'; rw [h']))
    | ok v => rw [hv] at h; simp only [bind, Except.bind] at h; cases h
  | scale x sx sy sz =>
    simp only [execStmt] at h
    cases hv : lookupVar st.env x with
    | error ev =>
      rw [hv] at h
      simp only [bind, Except.bind] at h
      exact lookupVar_error_runtime st.env x e (hv.trans (by injection h with h'; rw [h']))
    | ok v => rw [hv] at h; simp only [bind, Except.bind] at h; cases h
  | color x hex =>
    simp only [execStmt] at h
    cases hv : lookupVar st.env x with
    | error ev =>
      rw [hv] at h
      simp only [bind, Except.bind] at h
      exact lookupVar_error_runtime st.env x e (hv.trans (by injection h with h'; rw [h']))
    | ok v => rw [hv] at h; simp only [bind, Except.bind] at h; cases h
  | add x name =>
    simp only [execStmt] at h
    cases hv : lookupVar st.env x with
    | error ev =>
      rw [hv] at h
      simp only [bind, Except.bind] at h
      exact lookupVar_error_runtime st.env x e (hv.trans (by injection h with h'; rw [h']))
    | ok v => rw [hv] at h; simp only [bind, Except.bind] at h; cases h

/-- Every fault a whole run can raise is a `Runtime` error. -/
theorem runStmts_error_runtime (now : ℕ) :
    ∀ (code : List Stmt) (st : ExecState) (e : ScriptError),
      runStmts now code st = .error e → ∃ msg, e = .Runtime msg := by
  intro code
  induction code with
  | nil => intro st e h; rw [runStmts] at h; cases h
  | cons s rest ih =>
    intro st e h
    rw [runStmts] at h
    cases hx : execStmt now st s with
    | error e' =>
      rw [hx] at h
      injection h with h'
      exact h' ▸ execStmt_error_runtime now st s e' hx
    | ok st' =>
      rw [hx] at h
      exact ih st' e h

/-- C5: `CSGEngine.execute` enforces no step or time budget: no execution
ever fails with `ScriptError::Timeout` — the only faults the sandbox can
surface are the rewrapped runtime errors, so a non-terminating script is
never cut off. -/
theorem execute_never_times_out :
    ∀ (code : List Stmt) (now : ℕ),
      execute code now ≠ Except.error ScriptError.Timeout := by
  intro code now h
  rw [execute] at h
  cases hr : runStmts now code ⟨newCADContext, []⟩ with
  | ok st => rw [hr] at h; cases h
  | error e =>
    rw [hr] at h
    injection h with h'
    obtain ⟨msg, hmsg⟩ := runStmts_error_runtime now code ⟨newCADContext, []⟩ e hr
    rw [h'] at hmsg
    cases hmsg

/-! ### C3 — determinism up to generated identifiers -/

/-- Erase the generated identifiers from a result list. -/
def stripIds (l : List CADObject) : List CADObject :=
  l.map CADObject.stripId

/-- Two running states that agree except possibly in the generated object
identifiers: equal variable environments, equal default material, and
result lists equal after identifier erasure. -/
def StateRel (s1 s2 : ExecState) : Prop :=
  s1.env = s2.env ∧ s1.ctx.material = s2.ctx.material ∧
    stripIds s1.ctx.objects = stripIds s2.ctx.objects

/-- Two run outcomes that agree except possibly in generated identifiers:
identical faults, or related states. -/
def ResultRel : Except ScriptError ExecState → Except ScriptError ExecState → Prop
  | .error e1, .error e2 => e1 = e2
  | .ok s1, .ok s2 => StateRel s1 s2
  | _, _ => False

/-- `Union` succeeds on every pair of operands. -/
theorem union_always_ok (a b : Option Brush) :
    ∃ r, CADContext.Union a b = .ok r := by
  cases a <;> cases b <;> exact ⟨_, rfl⟩

/-- `Subtract` succeeds on every pair of operands. -/
theorem subtract_always_ok (a b : Option Brush) :
    ∃ r, CADContext.Subtract a b = .ok r := by
  cases a <;> cases b <;> exact ⟨_, rfl⟩

/-- `Intersect` succeeds on every pair of operands. -/
theorem intersect_always_ok (a b : Option Brush) :
    ∃ r, CADContext.Intersect a b = .ok r := by
  cases a <;> cases b <;> exact ⟨_, rfl⟩

/-- One statement preserves the up-to-identifier relation between two runs
of the same script at clocks `t1` and `t2`. -/
theorem execStmt_rel (t1 t2 : ℕ) (s : Stmt) (s1 s2 : ExecState)
    (h : StateRel s1 s2) :
    ResultRel (execStmt t1 s1 s) (execStmt t2 s2 s) := by
  obtain ⟨he, hm, ho⟩ := h
  cases s with
  | letBox x w hh d =>
    simp only [execStmt, CADContext.Box, liftGeometry, bind, Except.bind]
    exact ⟨by rw [he, hm], hm, ho⟩
  | letSphere x r =>
    simp only [execStmt, CADContext.Sphere, liftGeometry, bind, Except.bind]
    exact ⟨by rw [he, hm], hm, ho⟩
  | letCylinder x rt rb hh =>
    simp only [execStmt, CADContext.Cylinder, liftGeometry, bind, Except.bind]
    exact ⟨by rw [he, hm], hm, ho⟩
  | letNull x =>
    simp only [execStmt]
    exact ⟨by rw [he], hm, ho⟩
  | letUnion x a b =>
    simp only [execStmt]
    have ha2 : lookupVar s1.env a = lookupVar s2.env a := by rw [he]
    have hb2 : lookupVar s1.env b = lookupVar s2.env b := by rw [he]
    cases hva : lookupVar s2.env a with
    | error ea =>
      rw [ha2, hva]
      exact rfl
    | ok va =>
      rw [ha2, hva]
      simp only [bind, Except.bind]
      cases hvb : lookupVar s2.env b with
      | error eb =>
        rw [hb2, hvb]
        exact rfl
      | ok vb =>
        rw [hb2, hvb]
        simp only [bind, Except.bind]
        obtain ⟨r, hr⟩ := union_always_ok va vb
        rw [hr]
        simp only [liftGeometry]
        exact ⟨by rw [he], hm, ho⟩
  | letSubtract x a b =>
    simp only [execStmt]
    have ha2 : lookupVar s1.env a = lookupVar s2.env a := by rw [he]
    have hb2 : lookupVar s1.env b = lookupVar s2.env b := by rw [he]
    cases hva : lookupVar s2.env a with
    | error ea =>
      rw [ha2, hva]
      exact rfl
    | ok va =>
      rw [ha2, hva]
      simp only [bind, Except.bind]
      cases hvb : lookupVar s2.env b with
      | error eb =>
        rw [hb2, hvb]
        exact rfl
      | ok vb =>
        rw [hb2, hvb]
        simp only [bind, Except.bind]
        obtain ⟨r, hr⟩ := subtract_always_ok va vb
        rw [hr]
        simp only [liftGeometry]
        exact ⟨by rw [he], hm, ho⟩
  | letIntersect x a b =>
    simp only [execStmt]
    have ha2 : lookupVar s1.env a = lookupVar s2.env a := by rw [he]
    have hb2 : lookupVar s1.env b = lookupVar s2.env b := by rw [he]
    cases hva : lookupVar s2.env a with
    | error ea =>
      rw [ha2, hva]
      exact rfl
    | ok va =>
      rw [ha2, hva]
      simp only [bind, Except.bind]
      cases hvb : lookupVar s2.env b with
      | error eb =>
        rw [hb2, hvb]
        exact rfl
      | ok vb =>
        rw [hb2, hvb]
        simp only [bind, Except.bind]
        obtain ⟨r, hr⟩ := intersect_always_ok va vb
        rw [hr]
        simp only [liftGeometry]
        exact ⟨by rw [he], hm, ho⟩
  | move x dx dy dz =>
    simp only [execStmt]
    have hx2 : lookupVar s1.env x = lookupVar s2.env x := by rw [he]
    cases hv : lookupVar s2.env x with
    | error ev => rw [hx2, hv]; exact rfl
    | ok v =>
      rw [hx2, hv]
      simp only [bind, Except.bind]
      exact ⟨by rw [he], hm, ho⟩
  | rotate x rx ry rz =>
    simp only [execStmt]
    have hx2 : lookupVar s1.env x = lookupVar s2.env x := by rw [he]
    cases hv : lookupVar s2.env x with
    | error ev => rw [hx2, hv]; exact rfl
    | ok v =>
      rw [hx2, hv]
      simp only [bind, Except.bind]
      exact ⟨by rw [he], hm, ho⟩
  | scale x sx sy sz =>
    simp only [execStmt]
    have hx2 : lookupVar s1.env x = lookupVar s2.env x := by rw [he]
    cases hv : lookupVar s2.env x with
    | error ev => rw [hx2, hv]; exact rfl
    | ok v =>
      rw [hx2, hv]
      simp only [bind, Except.bind]
      exact ⟨by rw [he], hm, ho⟩
  | color x hex =>
    simp only [execStmt]
    have hx2 : lookupVar s1.env x = lookupVar s2.env x := by rw [he]
    cases hv : lookupVar s2.env x with
    | error ev => rw [hx2, hv]; exact rfl
    | ok v =>
      rw [hx2, hv]
      simp only [bind, Except.bind]
      exact ⟨by rw [he], hm, ho⟩
  | add x name =>
    simp only [execStmt]
    have hx2 : lookupVar s1.env x = lookupVar s2.env x := by rw [he]
    cases hv : lookupVar s2.env x with
    | error ev => rw [hx2, hv]; exact rfl
    | ok v =>
      rw [hx2, hv]
      simp only [bind, Except.bind]
      cases v with
      | none => exact ⟨he, hm, ho⟩
      | some mb =>
        refine ⟨he, hm, ?_⟩
        show stripIds (s1.ctx.objects ++ _) = stripIds (s2.ctx.objects ++ _)
        simp only [stripIds, List.map_append] at ho ⊢
        rw [ho]
        rfl

/-- A whole run preserves the up-to-identifier relation. -/
theorem runStmts_rel (t1 t2 : ℕ) :
    ∀ (code : List Stmt) (s1 s2 : ExecState), StateRel s1 s2 →
      ResultRel (runStmts t1 code s1) (runStmts t2 code s2) := by
  intro code
  induction code with
  | nil => intro s1 s2 h; exact h
  | cons s rest ih =>
    intro s1 s2 h
    have hstep := execStmt_rel t1 t2 s s1 s2 h
    rw [runStmts, runStmts]
    cases h1 : execStmt t1 s1 s with
    | error e1 =>
      cases h2 : execStmt t2 s2 s with
      | error e2 =>
        rw [h1, h2] at hstep
        have heq : e1 = e2 := hstep
        rw [heq]
        exact rfl
      | ok s2' =>
        rw [h1, h2] at hstep
        exact hstep.elim
    | ok s1' =>
      cases h2 : execStmt t2 s2 s with
      | error e2 =>
        rw [h1, h2] at hstep
        exact hstep.elim
      | ok s2' =>
        rw [h1, h2] at hstep
        exact ih s1' s2' hstep

/-- C3 (amended): running the same script text at any two clock values —
i.e. twice, with no other input varying — produces outcomes identical in
object count, shape kinds, transforms and colors: the results agree
exactly once the generated identifiers are erased. Identifiers are the one
permitted difference, and they are generated inside the Sandbox (from the
result index and the `Date.now` clock), not supplied by the caller. -/
theorem execute_deterministic_up_to_ids :
    ∀ (code : List Stmt) (t1 t2 : ℕ),
      Except.map stripIds (execute code t1) = Except.map stripIds (execute code t2) := by
  intro code t1 t2
  have h := runStmts_rel t1 t2 code ⟨newCADContext, []⟩ ⟨newCADContext, []⟩
    ⟨rfl, rfl, rfl⟩
  rw [execute, execute]
  cases h1 : runStmts t1 code ⟨newCADContext, []⟩ with
  | error e1 =>
    cases h2 : runStmts t2 code ⟨newCADContext, []⟩ with
    | error e2 =>
      rw [h1, h2] at h
      have heq : e1 = e2 := h
      rw [heq]
    | ok s2 =>
      rw [h1, h2] at h
      exact h.elim
  | ok s1 =>
    cases h2 : runStmts t2 code ⟨newCADContext, []⟩ with
    | error e2 =>
      rw [h1, h2] at h
      exact h.elim
    | ok s2 =>
      rw [h1, h2] at h
      show Except.ok (stripIds s1.ctx.objects) = Except.ok (stripIds s2.ctx.objects)
      exact congrArg Except.ok h.2.2

/-- C3 (counterexample): the identifiers are generated inside the Sandbox,
not supplied by the caller — two executions of the same script text, with
identical caller input and only the ambient `Date.now` clock differing,
return different identifier lists (`obj_<index>_<clock>`). -/
theorem execute_ids_generated_inside :
    Except.map (fun l => l.map (fun o : CADObject => o.id)) (execute cubeScript 0) =
      Except.ok ["obj_0_0", "obj_1_0"] ∧
    Except.map (fun l => l.map (fun o : CADObject => o.id)) (execute cubeScript 1) =
      Except.ok ["obj_0_1", "obj_1_1"] ∧
    (["obj_0_0", "obj_1_0"] : List String) ≠ ["obj_0_1", "obj_1_1"] := by
  exact ⟨rfl, rfl, by decide⟩

end Janus
